import Mathlib

/-!
Verification of the double-base chain programs `23.cpp` and `23_spa.cpp`
(repository QQWangYao/23chains).

The two C++ files are shallowly embedded below.  Machine integers are
modelled as `Nat` (weights, table bytes, indices; all values stay far
below 2^63 along the modelled executions, and byte writes are masked
where the source masks them) or as `Int` where the source lets an index
run below zero (the backtracking walk of `print_chain`).  The
`std::bitset` value of a big integer is modelled by the natural number
whose binary digits are the bits of the bitset; `bitset::test` becomes
`Nat.testBit`.  The three global tables `P_weight`, `N_weight` and `T`
are modelled as total functions updated pointwise; C global arrays are
zero-initialised, which the initial states reproduce.  Loops whose
termination is data dependent take an explicit fuel argument and return
`none` when the fuel runs out, so a `some` result always corresponds to
a genuine terminating execution of the source.

Namespace `C23` embeds `23.cpp`, namespace `CSPA` embeds `23_spa.cpp`.
-/

/-- `BITS+4` with the default `BITS=256`: capacity of the bitsets and
size of the weight/trace tables, and the infeasible sentinel used by
`23_spa.cpp`. -/
def max_size : Nat := 260

/-- `INT_MAX` of the platform `int`, the infeasible sentinel used by
`23.cpp`. -/
def INT_MAX : Nat := 2147483647

/-- `bigint_t`: bitset value (as the natural number with those binary
digits), most-significant-bit tracking field and zero flag. -/
structure bigint where
  num : Nat
  msb : Nat
  zero : Bool
deriving Repr, DecidableEq

/-- `chain_t`: weight of the best chain found plus the row/column
recorded for it. -/
structure chain where
  weight : Nat
  i : Nat
  j : Nat
deriving Repr, DecidableEq

/-- Pointwise update of a one-dimensional table. -/
def upd1 (f : Nat → Nat) (i v : Nat) : Nat → Nat :=
  fun i' => if i' = i then v else f i'

/-- Pointwise update of a generation-indexed weight table
(`P_weight[g][i]` / `N_weight[g][i]`, the generation index modelled as
a `Bool`). -/
def upd2 (f : Bool → Nat → Nat) (g : Bool) (i v : Nat) : Bool → Nat → Nat :=
  fun g' i' => if g' = g ∧ i' = i then v else f g' i'

/-- Pointwise update of the two-dimensional trace table `T[j][i]`. -/
def updT (t : Nat → Nat → Nat) (j i v : Nat) : Nat → Nat → Nat :=
  fun j' i' => if j' = j ∧ i' = i then v else t j' i'

/-- State of the bit sweep shared by both `divide_by_3` routines:
the base-3 carry, the accumulated destination value, the destination
`msb` field and the two zero flags being maintained. -/
structure Div3St where
  carry : Nat
  destNum : Nat
  destMsb : Nat
  destZero : Bool
  origZero : Bool
deriving Repr, DecidableEq

namespace C23

/-!  ### `23.cpp` : decimal parse (`str_to_bits`)

The decimal string is halved in place until it is all zero; the parity
of each pass becomes the next bit.  Characters are modelled as their
byte values; `digit` is computed modulo 256 exactly as the `uint8_t`
conversion of the C source does (which also absorbs the signedness of
`char` on the read-back, since both differ from the mathematical value
by a multiple of 256).  -/

/-- One pass of the do-while loop body of `str_to_bits` over the
character buffer: halves every digit in place, returning the updated
buffer, the final carry, the per-pass `zero` flag and the updated
`dest->zero` flag. -/
def halvePass : Nat → Bool → Bool → List Nat → List Nat × Nat × Bool × Bool
  | carry, zero, dz, [] => ([], carry, zero, dz)
  | carry, zero, dz, c :: rest =>
    let digit : Nat := (((carry * 10 + c : Int) - 48) % 256).toNat
    if digit ≠ 0 then
      let carry' := if digit % 2 = 0 then 0 else 1
      let c' := ((digit >>> 1) + 48) % 256
      let out := halvePass carry' false false rest
      (c' :: out.1, out.2)
    else
      let out := halvePass carry zero dz rest
      (c :: out.1, out.2)

/-- The do-while loop of `str_to_bits`: each pass may set bit `msb`
from the carry and increments `msb`; the loop stops when a pass saw
only zero digits.  Fuelled; `none` means the fuel ran out. -/
def strLoop : Nat → List Nat → Nat → Nat → Bool → Option (List Nat × bigint)
  | 0, _, _, _, _ => none
  | fuel + 1, orig, num, msb, dz =>
    let out := halvePass 0 true dz orig
    let orig' := out.1
    let carry := out.2.1
    let zero := out.2.2.1
    let dz' := out.2.2.2
    let num' := if carry = 1 then num + 2 ^ msb else num
    if zero then some (orig', ⟨num', msb + 1, dz'⟩)
    else strLoop fuel orig' num' (msb + 1) dz'

/-- `str_to_bits` of `23.cpp`: destructively converts the decimal
buffer, returning the final (overwritten) buffer together with the
parsed `bigint_t`. -/
def str_to_bits (fuel : Nat) (orig : List Nat) : Option (List Nat × bigint) :=
  strLoop fuel orig 0 0 true

/-!  ### `23.cpp` : `divide_by_3`  -/

/-- Body of the `for` loop of `divide_by_3` in `23.cpp` at bit `i`. -/
def div3Step (v i : Nat) (st : Div3St) : Div3St :=
  if v.testBit i then
    let st' :=
      if st.carry = 1 then
        { st with destNum := st.destNum + 2 ^ i, carry := st.carry - 1,
                  destZero := false,
                  destMsb := if st.destMsb < i then i + 1 else st.destMsb }
      else if st.carry = 2 then
        { st with destNum := st.destNum + 2 ^ i, destZero := false,
                  destMsb := if st.destMsb < i then i + 1 else st.destMsb }
      else
        { st with carry := st.carry + 1 }
    { st' with origZero := false }
  else
    if st.carry = 1 then
      { st with carry := st.carry + 1 }
    else if st.carry = 2 then
      { st with destNum := st.destNum + 2 ^ i, carry := st.carry - 1,
                destZero := false,
                destMsb := if st.destMsb < i then i + 1 else st.destMsb }
    else st

/-- The sweep `for (i = orig->msb; i >= 0; i--)`: processes bits
`i, i-1, ..., 0`. -/
def div3Sweep (v : Nat) : Nat → Div3St → Div3St
  | 0, st => div3Step v 0 st
  | i + 1, st => div3Sweep v i (div3Step v (i + 1) st)

/-- `divide_by_3` of `23.cpp`: returns the updated `orig` (its `zero`
flag is recomputed) and the freshly written `dest`. -/
def divide_by_3 (orig : bigint) : bigint × bigint :=
  let st := div3Sweep orig.num orig.msb ⟨0, 0, 0, true, true⟩
  (⟨orig.num, orig.msb, st.origZero⟩, ⟨st.destNum, st.destMsb, st.destZero⟩)

end C23

namespace CSPA

/-!  ### `23_spa.cpp` : hexadecimal parse (`str_to_bits`)

Processes the string from its last character to its first, OR-ing each
decoded 4-bit digit at the running bit offset.  The digit decoding is
the `uint8_t` arithmetic of the source, taken modulo 256. -/

/-- Decode one character exactly as
`(orig[i] > '9') ? (orig[i] &~ 0x20)-'A'+10 : (orig[i]-'0')` does. -/
def hexDigit (c : Nat) : Nat :=
  if c > 57 then (((((c &&& 223 : Nat)) : Int) - 65 + 10) % 256).toNat
  else (((c : Int) - 48) % 256).toNat

/-- The `for` loop of `str_to_bits` in `23_spa.cpp`, walking the
character list from the right; returns `(num, bitcount)`. -/
def strFold : List Nat → Nat × Nat
  | [] => (0, 0)
  | c :: rest =>
    let out := strFold rest
    (out.1 ||| (hexDigit c <<< out.2), out.2 + 4)

/-- `str_to_bits` of `23_spa.cpp`.  The source loop runs from the last
character up to the first; `strFold` places the last list element at
bit offset 0 and the head at the highest offset, matching it.  After
the loop, `dest->zero` reflects only whether `bitcount > 0` (i.e.
whether the string was non-empty) and `dest->msb` is set to the final
`bitcount`. -/
def str_to_bits (orig : List Nat) : bigint :=
  let out := strFold orig
  ⟨out.1, out.2, if out.2 > 0 then false else true⟩

/-!  ### `23_spa.cpp` : `divide_by_3`

The local `uint64_t msb = dest->msb - 1` is only ever used as `msb+1`,
which (in the wrap-around arithmetic of `uint64_t`) equals `dest->msb`
again; the transcription below writes `st.destMsb` for `msb+1`.
Branches guarded by `carry == 1 && carry_aux == 3` are unreachable
(`carry_aux = carry + 1 = 2` there) but are transcribed anyway. -/

/-- Body of the `for` loop of `divide_by_3` in `23_spa.cpp` at bit `i`. -/
def div3Step (v i : Nat) (st : Div3St) : Div3St :=
  if v.testBit i then
    let carry_aux := st.carry + 1
    let st' :=
      if st.carry = 1 then
        if carry_aux = 3 then
          { st with carry := 0, destNum := st.destNum + 2 ^ i }
        else
          { st with carry := 0, destNum := st.destNum + 2 ^ i,
                    destMsb := if st.destMsb < i then i + 1 else st.destMsb }
      else
        if carry_aux = 3 then
          { st with carry := 2, destNum := st.destNum + 2 ^ i,
                    destMsb := if st.destMsb < i then i + 1 else st.destMsb }
        else
          { st with carry := 1 }
    { st' with origZero := false }
  else
    let carry_aux := st.carry + 1
    if st.carry = 1 then
      if carry_aux = 3 then
        { st with carry := 2,
                  destMsb := if st.destMsb < i then i + 1 else st.destMsb }
      else
        { st with carry := 2 }
    else
      if carry_aux = 3 then
        { st with carry := 1, destNum := st.destNum + 2 ^ i,
                  destMsb := if st.destMsb < i then i + 1 else st.destMsb }
      else
        { st with carry := 0 }

/-- The sweep `for (i = orig->msb; i >= 0; i--)` of `23_spa.cpp`. -/
def div3Sweep (v : Nat) : Nat → Div3St → Div3St
  | 0, st => div3Step v 0 st
  | i + 1, st => div3Sweep v i (div3Step v (i + 1) st)

/-- `divide_by_3` of `23_spa.cpp`: `orig`'s zero flag is only ever
cleared (never reset to true), and `dest`'s zero flag is derived from
the final `dest->msb`. -/
def divide_by_3 (orig : bigint) : bigint × bigint :=
  let st := div3Sweep orig.num orig.msb ⟨0, 0, 0, true, orig.zero⟩
  (⟨orig.num, orig.msb, st.origZero⟩,
   ⟨st.destNum, st.destMsb, if st.destMsb > 0 then false else true⟩)

end CSPA

/-!  ## The search state

Both programs keep the rolling weight tables `P_weight[2][max_size]`,
`N_weight[2][max_size]`, the trace table `T[max_size][max_size]` and
the running best chain.  The generation index (`curr`/`next`, `0`/`1`
in the source) is a `Bool` here, generation `0` being `false`. -/

/-- The mutable state of `optimal_chain`: the two weight tables, the
trace table and the best chain so far.  `cnt` is not part of the
source state: it is ghost instrumentation counting how many times the
body of the inner row loop was executed (the "transition evaluations"
of the constant-time property); it is written by nothing but the
`cnt + 1` increment at the top of the row body and read by nothing. -/
structure SearchSt where
  P : Bool → Nat → Nat
  N : Bool → Nat → Nat
  T : Nat → Nat → Nat
  shortest : chain
  cnt : Nat

namespace C23

/-- The guarded update pattern of `23.cpp`:
`if (cand < P[g][idx]) { P[g][idx] = cand; T[tj][ti] = (T[tj][ti] & mask) | bits; }`
(each `if` block of the horizontal and vertical steps is one instance;
`mask` is `240` for the positive 4-bit record, `15` for the negative
one, and `bits` the record value written). -/
def guardedP (st : SearchSt) (g : Bool) (idx cand tj ti mask bits : Nat) : SearchSt :=
  if cand < st.P g idx then
    { st with P := upd2 st.P g idx cand,
              T := updT st.T tj ti ((st.T tj ti &&& mask) ||| bits) }
  else st

/-- The same guarded update pattern targeting `N_weight`. -/
def guardedN (st : SearchSt) (g : Bool) (idx cand tj ti mask bits : Nat) : SearchSt :=
  if cand < st.N g idx then
    { st with N := upd2 st.N g idx cand,
              T := updT st.T tj ti ((st.T tj ti &&& mask) ||| bits) }
  else st

/-- The horizontal-steps block of `23.cpp` (lines 171-212) at row `i`:
three guarded updates, chosen by bit `i` of `a`. -/
def horizStep (a : bigint) (j : Nat) (c : Bool) (i : Nat) (st : SearchSt) : SearchSt :=
  if a.num.testBit i then
    let st1 := guardedP st c (i + 1) (st.P c i + 1) j (i + 1) 240 1
    let st2 := guardedN st1 c (i + 1) (st1.P c i + 1) j (i + 1) 15 48
    guardedN st2 c (i + 1) (st2.N c i) j (i + 1) 15 64
  else
    let st1 := guardedP st c (i + 1) (st.P c i) j (i + 1) 240 0
    let st2 := guardedP st1 c (i + 1) (st1.N c i + 1) j (i + 1) 240 5
    guardedN st2 c (i + 1) (st2.N c i + 1) j (i + 1) 15 112

/-- The vertical-steps block of `23.cpp` (lines 213-282) at row `i`. -/
def vertStep (a b : bigint) (j : Nat) (c : Bool) (i : Nat) (st : SearchSt) : SearchSt :=
  if !a.zero then
    if b.zero ∧ i = 0 then
      let st1 := guardedP st (!c) i (st.P c i + 1) (j + 1) i 240 9
      guardedN st1 (!c) i (st1.N c i + 1) (j + 1) i 15 240
    else
      if Bool.xor (a.num.testBit i) (b.num.testBit i) then
        let st1 := guardedP st (!c) i (st.P c i + 1) (j + 1) i 240 9
        guardedN st1 (!c) i (st1.N c i + 1) (j + 1) i 15 240
      else
        if Bool.xor (Bool.xor (a.num.testBit i) (a.num.testBit (i + 1)))
            (b.num.testBit (i + 1)) then
          let st1 := guardedN st (!c) i (st.P c i + 1) (j + 1) i 15 176
          guardedN st1 (!c) i (st1.N c i) (j + 1) i 15 192
        else
          let st1 := guardedP st (!c) i (st.P c i) (j + 1) i 240 8
          guardedP st1 (!c) i (st1.N c i + 1) (j + 1) i 240 13
  else st

/-- One iteration (row `i`) of the inner `for` loop of `optimal_chain`
in `23.cpp`, including the pruning check that counts skipped rows in
`cont`.  `c` is the current generation, `!c` the next one. -/
def rowIter (a b : bigint) (j : Nat) (c : Bool) (p : SearchSt × Nat) (i : Nat) :
    SearchSt × Nat :=
  let st := { p.1 with cnt := p.1.cnt + 1 }
  let st := { st with P := upd2 st.P (!c) i INT_MAX, N := upd2 st.N (!c) i INT_MAX }
  if st.shortest.weight ≤ st.P c i ∧ st.shortest.weight ≤ st.N c i then
    (st, p.2 + 1)
  else
    (vertStep a b j c i (horizStep a j c i st), p.2)

/-- The per-column initialisation of `23.cpp` (lines 160-161): rows
`size+1` and `size+2` of the next generation are set to the sentinel. -/
def columnInit (c : Bool) (size : Nat) (st : SearchSt) : SearchSt :=
  let st1 := { st with P := upd2 st.P (!c) (size + 1) INT_MAX,
                       N := upd2 st.N (!c) (size + 1) INT_MAX }
  { st1 with P := upd2 st1.P (!c) (size + 2) INT_MAX,
             N := upd2 st1.N (!c) (size + 2) INT_MAX }

/-- One best-chain check of `23.cpp` (lines 286-291 etc.):
`if (P_weight[g][row] < shortest->weight) shortest = {P_weight[g][row], row, col}`. -/
def bestCheck (g : Bool) (row col : Nat) (st : SearchSt) : SearchSt :=
  if st.P g row < st.shortest.weight then
    { st with shortest := ⟨st.P g row, row, col⟩ }
  else st

/-- The `while(!a.zero)` loop of `optimal_chain` in `23.cpp`: one
recursive call per column.  Fuelled; `some` results are genuine
terminations (via one of the two `break`s or the loop condition).
Note the next-generation best checks record column `j + 1`. -/
def search : Nat → bigint → Nat → Bool → SearchSt → Option SearchSt
  | 0, _, _, _, _ => none
  | fuel + 1, a, j, c, st =>
    if a.zero then some st
    else
      let pr := divide_by_3 a
      let a := pr.1
      let b := pr.2
      let size := a.msb
      let rl := (List.range (size + 1)).foldl (rowIter a b j c) (columnInit c size st, 0)
      let st := bestCheck c (size + 2) j (bestCheck c (size + 1) j rl.1)
      if a.zero then some st
      else
        let st := bestCheck (!c) (b.msb + 2) (j + 1) (bestCheck (!c) (b.msb + 1) (j + 1) st)
        if a.msb ≤ rl.2 then some st
        else search fuel b (j + 1) (!c) st

/-- The state of `23.cpp` after its global initialisation and the
initialisation prologue of `optimal_chain` (globals are
zero-initialised; generation 0 is set to `INT_MAX` for indices below
`max_size`; `P_weight[0][0] = 0` is the base case; the caller's
`chain_t` is uninitialised stack memory, passed in as `sh0`). -/
def initSt (sh0 : chain) : SearchSt :=
  let W : Bool → Nat → Nat := fun g i => if g = false ∧ i < max_size then INT_MAX else 0
  { P := upd2 W false 0 0, N := W, T := fun _ _ => 0,
    shortest := ⟨INT_MAX, sh0.i, sh0.j⟩, cnt := 0 }

/-- `optimal_chain` of `23.cpp`. -/
def optimal_chain (fuel : Nat) (a : bigint) (sh0 : chain) : Option SearchSt :=
  search fuel a 0 false (initSt sh0)

end C23

namespace CSPA

/-- The `step` helper of `23_spa.cpp`: conditional-move style guarded
minimum update returning the new cell value and the new trace table.
The non-improving branch performs the camouflage write
`T[j][i] &= 255; T[j][i] |= 0`. -/
def step (v1 v2 j i mov : Nat) (T : Nat → Nat → Nat) : Nat × (Nat → Nat → Nat) :=
  let tmp1 := v1
  let tmp2 := v2
  let clear : Nat := if mov < 16 then 240 else 15
  if tmp1 < tmp2 then (tmp1, updT T j i ((T j i &&& clear) ||| mov))
  else (tmp2, updT T j i ((T j i &&& 255) ||| 0))

/-- The `shorter_chain` helper of `23_spa.cpp`: records `{P[row][i], i, j}`
when strictly smaller than the incumbent, else re-stores the incumbent. -/
def shorter_chain (i j : Nat) (row : Bool) (P : Bool → Nat → Nat) (shortest : chain) :
    chain :=
  let weight := P row i
  if weight < shortest.weight then ⟨weight, i, j⟩ else shortest

/-- One iteration (row `i`) of the inner `for` loop of `optimal_chain`
in `23_spa.cpp`.  No pruning: every row executes both transition
blocks.  `cnt` is the ghost instrumentation counter. -/
def rowIter (a b : bigint) (j : Nat) (c : Bool) (st : SearchSt) (i : Nat) : SearchSt :=
  let st := { st with cnt := st.cnt + 1 }
  let st := { st with P := upd2 st.P (!c) i max_size, N := upd2 st.N (!c) i max_size }
  let st :=
    if a.num.testBit i then
      let s1 := step (st.N c i) (st.N c (i + 1)) j (i + 1) 64 st.T
      let st := { st with N := upd2 st.N c (i + 1) s1.1, T := s1.2 }
      let s2 := step (st.P c i + 1) (st.P c (i + 1)) j (i + 1) 1 st.T
      let st := { st with P := upd2 st.P c (i + 1) s2.1, T := s2.2 }
      let s3 := step (st.P c i + 1) (st.N c (i + 1)) j (i + 1) 48 st.T
      { st with N := upd2 st.N c (i + 1) s3.1, T := s3.2 }
    else
      let s1 := step (st.P c i) (st.P c (i + 1)) j (i + 1) 0 st.T
      let st := { st with P := upd2 st.P c (i + 1) s1.1, T := s1.2 }
      let s2 := step (st.N c i + 1) (st.N c (i + 1)) j (i + 1) 112 st.T
      let st := { st with N := upd2 st.N c (i + 1) s2.1, T := s2.2 }
      let s3 := step (st.N c i + 1) (st.P c (i + 1)) j (i + 1) 5 st.T
      { st with P := upd2 st.P c (i + 1) s3.1, T := s3.2 }
  if !a.zero then
    if Bool.xor (a.num.testBit i) (b.num.testBit i) then
      if Bool.xor (Bool.xor (a.num.testBit i) (a.num.testBit (i + 1))) (b.num.testBit (i + 1)) then
        let st := { st with P := upd2 st.P (!c) i (st.P c i + 1),
                            N := upd2 st.N (!c) i max_size,
                            T := updT st.T (j + 1) i 9 }
        let s := step (st.N c i + 1) (st.N (!c) i) (j + 1) i 240 st.T
        { st with N := upd2 st.N (!c) i s.1, T := s.2 }
      else
        let st := { st with P := upd2 st.P (!c) i (st.P c i + 1),
                            N := upd2 st.N (!c) i max_size,
                            T := updT st.T (j + 1) i 9 }
        let s := step (st.N c i + 1) (st.N (!c) i) (j + 1) i 240 st.T
        { st with N := upd2 st.N (!c) i s.1, T := s.2 }
    else
      if Bool.xor (Bool.xor (a.num.testBit i) (a.num.testBit (i + 1))) (b.num.testBit (i + 1)) then
        let st := { st with N := upd2 st.N (!c) i (st.N c i),
                            P := upd2 st.P (!c) i max_size,
                            T := updT st.T (j + 1) i 192 }
        let s := step (st.P c i + 1) (st.N (!c) i) (j + 1) i 176 st.T
        { st with N := upd2 st.N (!c) i s.1, T := s.2 }
      else
        let st := { st with P := upd2 st.P (!c) i (st.P c i),
                            N := upd2 st.N (!c) i max_size,
                            T := updT st.T (j + 1) i 8 }
        let s := step (st.N c i + 1) (st.P (!c) i) (j + 1) i 13 st.T
        { st with P := upd2 st.P (!c) i s.1, T := s.2 }
  else st

/-- The `while(!a.zero)` loop of `optimal_chain` in `23_spa.cpp`:
no pruning, no early exit; the four `shorter_chain` calls pass `j`
for both the current and the next generation. -/
def search : Nat → bigint → Nat → Bool → SearchSt → Option SearchSt
  | 0, _, _, _, _ => none
  | fuel + 1, a, j, c, st =>
    if a.zero then some st
    else
      let pr := divide_by_3 a
      let a := pr.1
      let b := pr.2
      let size := a.msb
      let st := { st with P := upd2 st.P (!c) (size + 1) max_size,
                          N := upd2 st.N (!c) (size + 1) max_size }
      let st := { st with P := upd2 st.P (!c) (size + 2) max_size,
                          N := upd2 st.N (!c) (size + 2) max_size }
      let st := (List.range (size + 1)).foldl (rowIter a b j c) st
      let st := { st with shortest := shorter_chain (size + 1) j c st.P st.shortest }
      let st := { st with shortest := shorter_chain (size + 2) j c st.P st.shortest }
      let size := b.msb
      let st := { st with shortest := shorter_chain (size + 1) j (!c) st.P st.shortest }
      let st := { st with shortest := shorter_chain (size + 2) j (!c) st.P st.shortest }
      search fuel b (j + 1) (!c) st

/-- The state of `23_spa.cpp` after its initialisation prologue
(sentinel `max_size` instead of `INT_MAX`). -/
def initSt (sh0 : chain) : SearchSt :=
  let W : Bool → Nat → Nat := fun g i => if g = false ∧ i < max_size then max_size else 0
  { P := upd2 W false 0 0, N := W, T := fun _ _ => 0,
    shortest := ⟨max_size, sh0.i, sh0.j⟩, cnt := 0 }

/-- `optimal_chain` of `23_spa.cpp`. -/
def optimal_chain (fuel : Nat) (a : bigint) (sh0 : chain) : Option SearchSt :=
  search fuel a 0 false (initSt sh0)

end CSPA

/-!  ## The reconstructor (`print_chain`)

The two `print_chain` routines are line-identical (modulo `printf`),
so one embedding serves both files.  The walk indexes `T` with signed
`int64_t` indices that the source never bounds-checks; the model
therefore reads through a total table `Int → Int → Nat` built from the
in-bounds trace table extended by an arbitrary `junk` function that
stands for whatever adjacent memory an out-of-bounds `T[j][i]` access
would hit. -/

/-- The walk state of `print_chain`: current cell, remaining weight
(`int64_t`, so it may pass below zero), the four decoded flag bits and
the emitted terms (in emission order; a term `(s, i, j)` is printed as
`- 2^(i)*3^(j)` when `s` is true and `+ 2^(i)*3^(j)` otherwise). -/
structure PrintSt where
  i : Int
  j : Int
  weight : Int
  type : Bool
  sign : Bool
  change_sign : Bool
  change_value : Bool
  terms : List (Bool × Int × Int)
deriving Repr, DecidableEq

/-- The total view of the trace table used by the walk: in-bounds
cells come from `T`, out-of-bounds accesses (undefined behaviour in
the source) read the `junk` parameter. -/
def tableExt (T : Nat → Nat → Nat) (junk : Int → Int → Nat) : Int → Int → Nat :=
  fun j i =>
    if 0 ≤ j ∧ j < (max_size : Int) ∧ 0 ≤ i ∧ i < (max_size : Int) then
      T j.toNat i.toNat
    else junk j i

/-- One iteration of the `while(chain->weight > 0)` loop of
`print_chain`: move up or left, possibly emit a term and decrement the
weight, then decode the next flag bits from the new cell using the
half selected by the previous cell's `sign` bit. -/
def printStep (T : Int → Int → Nat) (st : PrintSt) : PrintSt :=
  let st := if st.type then { st with j := st.j - 1 } else { st with i := st.i - 1 }
  let st :=
    if st.change_value then
      { st with terms := st.terms ++ [(st.change_sign, st.i, st.j)],
                weight := st.weight - 1 }
    else st
  let base : Nat := if st.sign then 4 else 0
  let t := T st.j st.i
  { st with type := t.testBit (base + 3), sign := t.testBit (base + 2),
            change_sign := t.testBit (base + 1), change_value := t.testBit base }

/-- The walk state at entry of `print_chain`: position and weight from
the chain, flags decoded from the low half of the starting cell. -/
def printInit (T : Int → Int → Nat) (ch : chain) : PrintSt :=
  let t := T (ch.j : Int) (ch.i : Int)
  { i := (ch.i : Int), j := (ch.j : Int), weight := (ch.weight : Int),
    type := t.testBit 3, sign := t.testBit 2,
    change_sign := t.testBit 1, change_value := t.testBit 0, terms := [] }

/-- The fuelled `while(chain->weight > 0)` loop. -/
def printLoop (T : Int → Int → Nat) : Nat → PrintSt → Option (List (Bool × Int × Int))
  | 0, st => if 0 < st.weight then none else some st.terms
  | fuel + 1, st =>
    if 0 < st.weight then printLoop T fuel (printStep T st) else some st.terms

/-- `print_chain` (both files): emits the term list, or `none` when the
walk has not driven the weight to zero within `fuel` iterations. -/
def print_chain (fuel : Nat) (T : Int → Int → Nat) (ch : chain) :
    Option (List (Bool × Int × Int)) :=
  printLoop T fuel (printInit T ch)

/-- Signed value `± 2^i · 3^j` of one emitted term (the exponents are
clamped at zero; every term of an in-bounds reconstruction has
non-negative exponents). -/
def termVal (t : Bool × Int × Int) : Int :=
  (if t.1 then -1 else 1) * 2 ^ t.2.1.toNat * 3 ^ t.2.2.toNat

/-- Sum of the reconstructed signed terms. -/
def termSum (l : List (Bool × Int × Int)) : Int :=
  (l.map termVal).sum

/-!  ## Specification-level definitions used by the proofs  -/

/-- Relation between a destination value `d` and the `msb` field both
`divide_by_3` routines compute for it: `0` when `d ≤ 1`, and otherwise
one past the index of the highest set bit of `d`. -/
def MsbInv (d m : Nat) : Prop :=
  (d ≤ 1 ∧ m = 0) ∨ (2 ≤ d ∧ 2 ≤ m ∧ 2 ^ (m - 1) ≤ d ∧ d < 2 ^ m)

/-- Invariant of the divide-by-3 bit sweep after all indices `≥ k` of
`v` have been processed (with `o` the `orig->zero` flag on entry):
the carry is the mod-3 remainder of the processed prefix, the
destination accumulator holds the prefix quotient shifted into place,
its `msb` field satisfies `MsbInv`, and the `orig` zero flag has been
cleared exactly when a set bit was seen. -/
def Div3Inv (v k : Nat) (o : Bool) (st : Div3St) : Prop :=
  st.carry = v / 2 ^ k % 3 ∧
  st.destNum = v / 2 ^ k / 3 * 2 ^ k ∧
  MsbInv st.destNum st.destMsb ∧
  st.origZero = (o && decide (v / 2 ^ k = 0))

/-- Both weight tables bounded by the `23.cpp` sentinel `INT_MAX`. -/
def WInv (P N : Bool → Nat → Nat) : Prop :=
  ∀ g i, P g i ≤ INT_MAX ∧ N g i ≤ INT_MAX

/-- Strict-improvement update of the best chain by one candidate
`(weight, row, column)`: the spec's description of how the engines
fold terminal-cell candidates into `BestChain`. -/
def bestUpd (sh : chain) (cand : Nat × Nat × Nat) : chain :=
  if cand.1 < sh.weight then ⟨cand.1, cand.2.1, cand.2.2⟩ else sh

/-- Modelled from the spec: the best-chain update for a cell of the
*next* generation records column `j + 1` ("column j+1 for
next-generation cells"), since that generation's trace records are
written at `T[j+1][i]`.  This is the spec's convention, to be compared
with what `23_spa.cpp`'s `shorter_chain` call sites actually record. -/
def specNextGenRecord (i j : Nat) (row : Bool) (P : Bool → Nat → Nat) (shortest : chain) :
    chain :=
  if P row i < shortest.weight then ⟨P row i, i, j + 1⟩ else shortest

/-- The final search state of `23.cpp` on input `"0"` (parse yields
the zero `bigint` with `msb = 1`; the search loop never runs, so this
is just the initialised state with the caller's garbage `i`/`j` taken
here as `0`/`0`). -/
def zeroRun : SearchSt :=
  (C23.optimal_chain 10 ⟨0, 1, true⟩ ⟨0, 0, 0⟩).getD (C23.initSt ⟨0, 0, 0⟩)

/-!  ## Lemmas about the divide-by-3 sweep  -/

lemma msbInv_unique {d m m' : Nat} (h : MsbInv d m) (h' : MsbInv d m') : m = m' := by
  rcases h with ⟨hd, hm⟩ | ⟨hd, hm, hlo, hhi⟩ <;>
    rcases h' with ⟨hd', hm'⟩ | ⟨hd', hm', hlo', hhi'⟩
  · omega
  · omega
  · omega
  · by_contra hne
    rcases Nat.lt_or_ge m m' with hlt | hge
    · have hp : 2 ^ m ≤ 2 ^ (m' - 1) := Nat.pow_le_pow_right (by norm_num) (by omega)
      omega
    · have hlt : m' < m := by omega
      have hp : 2 ^ m' ≤ 2 ^ (m - 1) := Nat.pow_le_pow_right (by norm_num) (by omega)
      omega

lemma msbInv_add (i d m : Nat) (hdvd : 2 ^ (i + 1) ∣ d) (h : MsbInv d m) :
    MsbInv (d + 2 ^ i) (if m < i then i + 1 else m) := by
  rcases h with ⟨hd, hm⟩ | ⟨hd, hm, hlo, hhi⟩
  · have hd0 : d = 0 := by
      rcases hdvd with ⟨t, ht⟩
      have h2 : 2 ≤ 2 ^ (i + 1) := by
        have := Nat.one_lt_two_pow_iff.mpr (Nat.succ_ne_zero i)
        omega
      rcases Nat.eq_zero_or_pos t with ht0 | ht1
      · rw [ht, ht0, mul_zero]
      · have : 2 ^ (i + 1) ≤ d := by
          calc 2 ^ (i + 1) = 2 ^ (i + 1) * 1 := (mul_one _).symm
          _ ≤ 2 ^ (i + 1) * t := Nat.mul_le_mul_left _ ht1
          _ = d := ht.symm
        omega
    subst hd0
    cases i with
    | zero =>
      subst hm
      simp only [Nat.lt_irrefl, if_false, pow_zero]
      exact Or.inl ⟨by omega, rfl⟩
    | succ n =>
      have hmlt : m < n + 1 := by omega
      simp only [if_pos hmlt, zero_add]
      refine Or.inr ⟨?_, by omega, ?_, ?_⟩
      · have := Nat.one_lt_two_pow_iff.mpr (Nat.succ_ne_zero n)
        omega
      · have : n + 1 + 1 - 1 = n + 1 := by omega
        rw [this]
      · exact (Nat.pow_lt_pow_iff_right (by norm_num)).mpr (by omega)
  · have hle : 2 ^ (i + 1) ≤ d := Nat.le_of_dvd (by omega) hdvd
    have hilt : i + 1 < m := by
      by_contra hcon
      have : 2 ^ m ≤ 2 ^ (i + 1) := Nat.pow_le_pow_right (by norm_num) (by omega)
      omega
    have hnm : ¬ m < i := by omega
    simp only [if_neg hnm]
    refine Or.inr ⟨by omega, hm, by omega, ?_⟩
    rcases hdvd with ⟨t, ht⟩
    have hsplit : 2 ^ m = 2 ^ (i + 1) * 2 ^ (m - (i + 1)) := by
      rw [← pow_add]
      congr 1
      omega
    have htlt : t < 2 ^ (m - (i + 1)) := by
      by_contra hcon
      have : 2 ^ (i + 1) * 2 ^ (m - (i + 1)) ≤ 2 ^ (i + 1) * t :=
        Nat.mul_le_mul_left _ (by omega)
      omega
    have hstep : d + 2 ^ (i + 1) ≤ 2 ^ m := by
      calc d + 2 ^ (i + 1) = 2 ^ (i + 1) * (t + 1) := by rw [ht]; ring
      _ ≤ 2 ^ (i + 1) * 2 ^ (m - (i + 1)) := Nat.mul_le_mul_left _ (by omega)
      _ = 2 ^ m := hsplit.symm
    have h2i : 2 ^ i < 2 ^ (i + 1) := Nat.pow_lt_pow_succ (by norm_num)
    omega


lemma step23_b1c0 (v k : Nat) (st : Div3St) (hb : v.testBit k = true) (hc : st.carry = 0) :
    C23.div3Step v k st = { st with carry := st.carry + 1, origZero := false } := by
  simp [C23.div3Step, hb, hc]

lemma step23_b1c1 (v k : Nat) (st : Div3St) (hb : v.testBit k = true) (hc : st.carry = 1) :
    C23.div3Step v k st =
      { st with destNum := st.destNum + 2 ^ k, carry := st.carry - 1, destZero := false,
                destMsb := if st.destMsb < k then k + 1 else st.destMsb,
                origZero := false } := by
  simp [C23.div3Step, hb, hc]

lemma step23_b1c2 (v k : Nat) (st : Div3St) (hb : v.testBit k = true) (hc : st.carry = 2) :
    C23.div3Step v k st =
      { st with destNum := st.destNum + 2 ^ k, destZero := false,
                destMsb := if st.destMsb < k then k + 1 else st.destMsb,
                origZero := false } := by
  simp [C23.div3Step, hb, hc]

lemma step23_b0c0 (v k : Nat) (st : Div3St) (hb : v.testBit k = false) (hc : st.carry = 0) :
    C23.div3Step v k st = st := by
  simp [C23.div3Step, hb, hc]

lemma step23_b0c1 (v k : Nat) (st : Div3St) (hb : v.testBit k = false) (hc : st.carry = 1) :
    C23.div3Step v k st = { st with carry := st.carry + 1 } := by
  simp [C23.div3Step, hb, hc]

lemma step23_b0c2 (v k : Nat) (st : Div3St) (hb : v.testBit k = false) (hc : st.carry = 2) :
    C23.div3Step v k st =
      { st with destNum := st.destNum + 2 ^ k, carry := st.carry - 1, destZero := false,
                destMsb := if st.destMsb < k then k + 1 else st.destMsb } := by
  simp [C23.div3Step, hb, hc]

lemma div3StepSpa_eq (v k : Nat) (st : Div3St) (hc2 : st.carry ≤ 2) :
    CSPA.div3Step v k st = { C23.div3Step v k st with destZero := st.destZero } := by
  obtain ⟨c, dn, dm, dz, oz⟩ := st
  simp only at hc2
  rcases (show c = 0 ∨ c = 1 ∨ c = 2 from by omega) with hcv | hcv | hcv <;> subst hcv <;>
    rcases Bool.eq_false_or_eq_true (v.testBit k) with hb | hb <;>
      simp [CSPA.div3Step, C23.div3Step, hb]


lemma div3Step23_inv (v k : Nat) (o : Bool) (st : Div3St) (h : Div3Inv v (k + 1) o st) :
    Div3Inv v k o (C23.div3Step v k st) := by
  obtain ⟨hc, hn, hm, ho⟩ := h
  have hpp : v / 2 ^ (k + 1) = v / 2 ^ k / 2 := by
    rw [pow_succ, ← Nat.div_div_eq_div_mul]
  rw [hpp] at hc hn ho
  have hdvd : 2 ^ (k + 1) ∣ st.destNum := ⟨v / 2 ^ k / 2 / 3, by rw [hn, mul_comm]⟩
  have hpow : 2 ^ (k + 1) = 2 ^ k * 2 := pow_succ 2 k
  have hoz : ∀ hmod : v / 2 ^ k % 2 = 0,
      (o && decide (v / 2 ^ k / 2 = 0)) = (o && decide (v / 2 ^ k = 0)) := by
    intro hmod
    have : decide (v / 2 ^ k / 2 = 0) = decide (v / 2 ^ k = 0) :=
      decide_eq_decide.mpr (by omega)
    rw [this]
  rcases Bool.eq_false_or_eq_true (v.testBit k) with hb | hb
  · have hmod : v / 2 ^ k % 2 = 1 := by
      have := (Nat.testBit_to_div_mod (x := v) (i := k)).symm.trans hb
      simpa using this
    have hnz : decide (v / 2 ^ k = 0) = false := decide_eq_false (by omega)
    rcases (show st.carry = 0 ∨ st.carry = 1 ∨ st.carry = 2 from by omega)
      with hcv | hcv | hcv
    · rw [step23_b1c0 v k st hb hcv]
      refine ⟨by simp; omega, ?_, hm, by simp [hnz]⟩
      show st.destNum = v / 2 ^ k / 3 * 2 ^ k
      rw [hn]
      have harith : v / 2 ^ k / 3 = 2 * (v / 2 ^ k / 2 / 3) := by omega
      rw [harith, hpow]; ring
    · rw [step23_b1c1 v k st hb hcv]
      have harith : v / 2 ^ k / 3 = 2 * (v / 2 ^ k / 2 / 3) + 1 := by omega
      have hval : st.destNum + 2 ^ k = v / 2 ^ k / 3 * 2 ^ k := by
        rw [hn, harith, hpow]; ring
      refine ⟨by simp; omega, hval, ?_, by simp [hnz]⟩
      show MsbInv (st.destNum + 2 ^ k) _
      exact msbInv_add k st.destNum st.destMsb hdvd hm
    · rw [step23_b1c2 v k st hb hcv]
      have harith : v / 2 ^ k / 3 = 2 * (v / 2 ^ k / 2 / 3) + 1 := by omega
      have hval : st.destNum + 2 ^ k = v / 2 ^ k / 3 * 2 ^ k := by
        rw [hn, harith, hpow]; ring
      refine ⟨by simp; omega, hval, ?_, by simp [hnz]⟩
      show MsbInv (st.destNum + 2 ^ k) _
      exact msbInv_add k st.destNum st.destMsb hdvd hm
  · have hmod : v / 2 ^ k % 2 = 0 := by
      have := (Nat.testBit_to_div_mod (x := v) (i := k)).symm.trans hb
      simpa using this
    rcases (show st.carry = 0 ∨ st.carry = 1 ∨ st.carry = 2 from by omega)
      with hcv | hcv | hcv
    · rw [step23_b0c0 v k st hb hcv]
      refine ⟨by omega, ?_, hm, by rw [ho]; exact hoz hmod⟩
      rw [hn]
      have harith : v / 2 ^ k / 3 = 2 * (v / 2 ^ k / 2 / 3) := by omega
      rw [harith, hpow]; ring
    · rw [step23_b0c1 v k st hb hcv]
      refine ⟨by simp; omega, ?_, hm, by simp; rw [ho]; exact hoz hmod⟩
      show st.destNum = v / 2 ^ k / 3 * 2 ^ k
      rw [hn]
      have harith : v / 2 ^ k / 3 = 2 * (v / 2 ^ k / 2 / 3) := by omega
      rw [harith, hpow]; ring
    · rw [step23_b0c2 v k st hb hcv]
      have harith : v / 2 ^ k / 3 = 2 * (v / 2 ^ k / 2 / 3) + 1 := by omega
      have hval : st.destNum + 2 ^ k = v / 2 ^ k / 3 * 2 ^ k := by
        rw [hn, harith, hpow]; ring
      refine ⟨by simp; omega, hval, ?_, by simp; rw [ho]; exact hoz hmod⟩
      show MsbInv (st.destNum + 2 ^ k) _
      exact msbInv_add k st.destNum st.destMsb hdvd hm

lemma div3StepSpa_inv (v k : Nat) (o : Bool) (st : Div3St) (h : Div3Inv v (k + 1) o st) :
    Div3Inv v k o (CSPA.div3Step v k st) := by
  have hc2 : st.carry ≤ 2 := by
    have h1 := h.1
    omega
  rw [div3StepSpa_eq v k st hc2]
  obtain ⟨h1, h2, h3, h4⟩ := div3Step23_inv v k o st h
  exact ⟨h1, h2, h3, h4⟩

lemma div3Step23_destZero (v k : Nat) (st : Div3St)
    (hd : st.destZero = decide (st.destNum = 0)) :
    (C23.div3Step v k st).destZero = decide ((C23.div3Step v k st).destNum = 0) := by
  have hp : 0 < 2 ^ k := Nat.two_pow_pos k
  unfold C23.div3Step
  split_ifs <;> simp_all

lemma div3StepSpa_destZero (v k : Nat) (st : Div3St) :
    (CSPA.div3Step v k st).destZero = st.destZero := by
  unfold CSPA.div3Step
  split_ifs <;> simp <;> split_ifs <;> simp

lemma div3Sweep23_inv (v : Nat) (o : Bool) :
    ∀ (i : Nat) (st : Div3St), Div3Inv v (i + 1) o st → Div3Inv v 0 o (C23.div3Sweep v i st)
  | 0, st, h => div3Step23_inv v 0 o st h
  | i + 1, st, h => div3Sweep23_inv v o i _ (div3Step23_inv v (i + 1) o st h)

lemma div3SweepSpa_inv (v : Nat) (o : Bool) :
    ∀ (i : Nat) (st : Div3St), Div3Inv v (i + 1) o st → Div3Inv v 0 o (CSPA.div3Sweep v i st)
  | 0, st, h => div3StepSpa_inv v 0 o st h
  | i + 1, st, h => div3SweepSpa_inv v o i _ (div3StepSpa_inv v (i + 1) o st h)

lemma div3Sweep23_destZero (v : Nat) :
    ∀ (i : Nat) (st : Div3St), st.destZero = decide (st.destNum = 0) →
      (C23.div3Sweep v i st).destZero = decide ((C23.div3Sweep v i st).destNum = 0)
  | 0, st, h => div3Step23_destZero v 0 st h
  | i + 1, st, h => div3Sweep23_destZero v i _ (div3Step23_destZero v (i + 1) st h)

lemma div3SweepSpa_destZero (v : Nat) :
    ∀ (i : Nat) (st : Div3St), (CSPA.div3Sweep v i st).destZero = st.destZero
  | 0, st => div3StepSpa_destZero v 0 st
  | i + 1, st =>
    (div3SweepSpa_destZero v i _).trans (div3StepSpa_destZero v (i + 1) st)

lemma div3Inv_init (v msb : Nat) (o dz : Bool) (hcap : v < 2 ^ (msb + 1)) :
    Div3Inv v (msb + 1) o ⟨0, 0, 0, dz, o⟩ := by
  have hz : v / 2 ^ (msb + 1) = 0 := Nat.div_eq_of_lt hcap
  exact ⟨by simp [hz], by simp [hz], Or.inl ⟨by simp, rfl⟩, by simp [hz]⟩

lemma msbInv_if_zero {d m : Nat} (h : MsbInv d m) :
    (if m > 0 then false else true) = decide (d ≤ 1) := by
  rcases h with ⟨hd, hm⟩ | ⟨hd, hm, _, _⟩
  · subst hm
    simp [hd]
  · have h1 : 0 < m := by omega
    have h2 : ¬ d ≤ 1 := by omega
    simp [h1, h2]

lemma divide_by_3_23_spec (orig : bigint) (hcap : orig.num < 2 ^ (orig.msb + 1)) :
    (C23.divide_by_3 orig).2.num = orig.num / 3 ∧
    MsbInv (orig.num / 3) (C23.divide_by_3 orig).2.msb ∧
    (C23.divide_by_3 orig).2.zero = decide (orig.num / 3 = 0) ∧
    (C23.divide_by_3 orig).1 = ⟨orig.num, orig.msb, decide (orig.num = 0)⟩ := by
  have hinv := div3Sweep23_inv orig.num true orig.msb ⟨0, 0, 0, true, true⟩
    (div3Inv_init orig.num orig.msb true true hcap)
  have hdz := div3Sweep23_destZero orig.num orig.msb ⟨0, 0, 0, true, true⟩ (by simp)
  obtain ⟨h1, h2, h3, h4⟩ := hinv
  simp only [pow_zero, Nat.div_one, mul_one, Bool.true_and] at h1 h2 h3 h4
  have hd : C23.divide_by_3 orig =
      (⟨orig.num, orig.msb,
         (C23.div3Sweep orig.num orig.msb ⟨0, 0, 0, true, true⟩).origZero⟩,
       ⟨(C23.div3Sweep orig.num orig.msb ⟨0, 0, 0, true, true⟩).destNum,
        (C23.div3Sweep orig.num orig.msb ⟨0, 0, 0, true, true⟩).destMsb,
        (C23.div3Sweep orig.num orig.msb ⟨0, 0, 0, true, true⟩).destZero⟩) := rfl
  rw [hd]
  refine ⟨h2, h2 ▸ h3, ?_, ?_⟩
  · show (C23.div3Sweep orig.num orig.msb ⟨0, 0, 0, true, true⟩).destZero = _
    rw [hdz]
    exact decide_eq_decide.mpr (by rw [h2])
  · simp [h4]

lemma divide_by_3_spa_spec (orig : bigint) (hcap : orig.num < 2 ^ (orig.msb + 1)) :
    (CSPA.divide_by_3 orig).2.num = orig.num / 3 ∧
    MsbInv (orig.num / 3) (CSPA.divide_by_3 orig).2.msb ∧
    (CSPA.divide_by_3 orig).2.zero = decide (orig.num / 3 ≤ 1) ∧
    (CSPA.divide_by_3 orig).1 =
      ⟨orig.num, orig.msb, orig.zero && decide (orig.num = 0)⟩ := by
  have hinv := div3SweepSpa_inv orig.num orig.zero orig.msb ⟨0, 0, 0, true, orig.zero⟩
    (div3Inv_init orig.num orig.msb orig.zero true hcap)
  obtain ⟨h1, h2, h3, h4⟩ := hinv
  simp only [pow_zero, Nat.div_one, mul_one] at h1 h2 h3 h4
  have hd : CSPA.divide_by_3 orig =
      (⟨orig.num, orig.msb,
         (CSPA.div3Sweep orig.num orig.msb ⟨0, 0, 0, true, orig.zero⟩).origZero⟩,
       ⟨(CSPA.div3Sweep orig.num orig.msb ⟨0, 0, 0, true, orig.zero⟩).destNum,
        (CSPA.div3Sweep orig.num orig.msb ⟨0, 0, 0, true, orig.zero⟩).destMsb,
        if (CSPA.div3Sweep orig.num orig.msb ⟨0, 0, 0, true, orig.zero⟩).destMsb > 0
        then false else true⟩) := rfl
  rw [hd]
  refine ⟨h2, h2 ▸ h3, ?_, ?_⟩
  · show (if (CSPA.div3Sweep orig.num orig.msb ⟨0, 0, 0, true, orig.zero⟩).destMsb > 0
        then false else true) = _
    rw [msbInv_if_zero (h2 ▸ h3)]
  · simp [h4]

/-!  ## Lemmas about the parsers  -/

lemma strFold_bitcount (s : List Nat) : (CSPA.strFold s).2 = 4 * s.length := by
  induction s with
  | nil => rfl
  | cons c rest ih =>
    simp only [CSPA.strFold, ih, List.length_cons]
    ring

lemma halvePass_false (s : List Nat) : ∀ (carry : Nat) (dz : Bool),
    (C23.halvePass carry false dz s).2.2.1 = false := by
  induction s with
  | nil => intro carry dz; rfl
  | cons c rest ih =>
    intro carry dz
    simp only [C23.halvePass]
    split_ifs <;> simp [ih]

lemma digit_value (carry c : Nat) (hc : carry ≤ 1) (h1 : 48 ≤ c) (h2 : c ≤ 57) :
    (((carry * 10 + c : Int) - 48) % 256).toNat = carry * 10 + c - 48 := by
  have hmod : ((carry * 10 + c : Int) - 48) % 256 = (carry * 10 + c : Int) - 48 :=
    Int.emod_eq_of_lt (by omega) (by omega)
  rw [hmod]
  omega

lemma halvePass_range (s : List Nat) : ∀ (carry : Nat) (z dz : Bool), carry ≤ 1 →
    (∀ c ∈ s, 48 ≤ c ∧ c ≤ 57) →
    (∀ c ∈ (C23.halvePass carry z dz s).1, 48 ≤ c ∧ c ≤ 57) ∧
    (C23.halvePass carry z dz s).2.1 ≤ 1 ∧
    (C23.halvePass carry z dz s).1.length = s.length := by
  induction s with
  | nil =>
    intro carry z dz hc hr
    exact ⟨by simp [C23.halvePass], by simpa [C23.halvePass] using hc,
      by simp [C23.halvePass]⟩
  | cons c rest ih =>
    intro carry z dz hc hr
    have hcr : 48 ≤ c ∧ c ≤ 57 := hr c (List.mem_cons_self c rest)
    have hrest : ∀ x ∈ rest, 48 ≤ x ∧ x ≤ 57 := fun x hx => hr x (List.mem_cons_of_mem c hx)
    have hdig := digit_value carry c hc hcr.1 hcr.2
    have hshift : (carry * 10 + c - 48) >>> 1 = (carry * 10 + c - 48) / 2 := by
      rw [Nat.shiftRight_succ, Nat.shiftRight_zero]
    have hchar : ((carry * 10 + c - 48) >>> 1 + 48) % 256 =
        (carry * 10 + c - 48) / 2 + 48 := by
      rw [hshift]
      exact Nat.mod_eq_of_lt (by omega)
    simp only [C23.halvePass, hdig]
    split_ifs with hz hpar
    · obtain ⟨ih1, ih2, ih3⟩ := ih 0 false false (by omega) hrest
      refine ⟨?_, by simpa using ih2, by simpa using ih3⟩
      intro x hx
      rcases List.mem_cons.mp hx with hx | hx
      · rw [hx, hchar]
        omega
      · exact ih1 x hx
    · obtain ⟨ih1, ih2, ih3⟩ := ih 1 false false (by omega) hrest
      refine ⟨?_, by simpa using ih2, by simpa using ih3⟩
      intro x hx
      rcases List.mem_cons.mp hx with hx | hx
      · rw [hx, hchar]
        omega
      · exact ih1 x hx
    · obtain ⟨ih1, ih2, ih3⟩ := ih carry z dz hc hrest
      refine ⟨?_, by simpa using ih2, by simpa using ih3⟩
      intro x hx
      rcases List.mem_cons.mp hx with hx | hx
      · exact hx ▸ hcr
      · exact ih1 x hx

lemma halvePass_zero_out (s : List Nat) : ∀ (carry : Nat) (dz : Bool), carry ≤ 1 →
    (∀ c ∈ s, 48 ≤ c ∧ c ≤ 57) →
    (C23.halvePass carry true dz s).2.2.1 = true →
    (C23.halvePass carry true dz s).1 = s ∧ ∀ c ∈ s, c = 48 := by
  induction s with
  | nil =>
    intro carry dz hc hr hz
    exact ⟨rfl, by simp⟩
  | cons c rest ih =>
    intro carry dz hc hr hz
    have hcr : 48 ≤ c ∧ c ≤ 57 := hr c (List.mem_cons_self c rest)
    have hrest : ∀ x ∈ rest, 48 ≤ x ∧ x ≤ 57 := fun x hx => hr x (List.mem_cons_of_mem c hx)
    have hdig := digit_value carry c hc hcr.1 hcr.2
    simp only [C23.halvePass, hdig] at hz ⊢
    split_ifs at hz ⊢ with hd
    · exfalso
      have hff := halvePass_false rest 0 false
      simp only [hff] at hz
      exact Bool.false_ne_true hz
    · exfalso
      have hff := halvePass_false rest 1 false
      simp only [hff] at hz
      exact Bool.false_ne_true hz
    · have hc48 : c = 48 ∧ carry = 0 := by omega
      obtain ⟨ih1, ih2⟩ := ih carry dz hc hrest (by simpa using hz)
      refine ⟨by simp [ih1], fun x hx => ?_⟩
      rcases List.mem_cons.mp hx with hx | hx
      · omega
      · exact ih2 x hx

lemma strLoop_zeroed (fuel : Nat) : ∀ (s : List Nat) (num msb : Nat) (dz : Bool)
    (out : List Nat × bigint), (∀ c ∈ s, 48 ≤ c ∧ c ≤ 57) →
    C23.strLoop fuel s num msb dz = some out →
    (∀ c ∈ out.1, c = 48) ∧ out.1.length = s.length := by
  induction fuel with
  | zero => intro s num msb dz out hr hout; exact absurd hout (by simp [C23.strLoop])
  | succ f ih =>
    intro s num msb dz out hr hout
    simp only [C23.strLoop] at hout
    rcases hbz : (C23.halvePass 0 true dz s).2.2.1 with hf | ht
    · rw [hbz] at hout
      simp only [Bool.false_eq_true, if_false] at hout
      obtain ⟨h1, h2, h3⟩ := halvePass_range s 0 true dz (by omega) hr
      obtain ⟨hh1, hh2⟩ := ih _ _ _ _ _ h1 hout
      exact ⟨hh1, hh2.trans h3⟩
    · rw [hbz] at hout
      simp only [if_true] at hout
      obtain ⟨hps, hall⟩ := halvePass_zero_out s 0 dz (by omega) hr hbz
      have hx := Option.some.inj hout
      rw [← hx]
      simp only [hps]
      exact ⟨hall, trivial⟩

/-!  ## Lemmas about the constant-time search's instrumentation  -/

lemma spaRowIter_cnt (a b : bigint) (j : Nat) (c : Bool) (st : SearchSt) (i : Nat) :
    (CSPA.rowIter a b j c st i).cnt = st.cnt + 1 := by
  simp only [CSPA.rowIter]
  repeat' split
  all_goals rfl

lemma spaFold_cnt (a b : bigint) (j : Nat) (c : Bool) :
    ∀ (k : Nat) (st : SearchSt),
      ((List.range k).foldl (CSPA.rowIter a b j c) st).cnt = st.cnt + k := by
  intro k
  induction k with
  | zero => intro st; simp
  | succ n ih =>
    intro st
    rw [List.range_succ, List.foldl_append, List.foldl_cons, List.foldl_nil,
      spaRowIter_cnt, ih]
    omega

lemma spaSearch_cnt_indep :
    ∀ (fuel : Nat) (a : bigint) (j : Nat) (c : Bool) (st1 st2 : SearchSt),
      st1.cnt = st2.cnt →
      (CSPA.search fuel a j c st1).map SearchSt.cnt =
        (CSPA.search fuel a j c st2).map SearchSt.cnt := by
  intro fuel
  induction fuel with
  | zero => intros; rfl
  | succ f ih =>
    intro a j c st1 st2 hcnt
    by_cases hz : a.zero = true
    · simp [CSPA.search, hz, hcnt]
    · simp only [CSPA.search, hz, Bool.false_eq_true, if_false]
      apply ih
      simp only [spaFold_cnt]
      rw [hcnt]

/-!  ## Lemmas: the `23.cpp` weight tables never exceed `INT_MAX`  -/

lemma winv_upd2_both {P N : Bool → Nat → Nat} (g : Bool) (i v w : Nat)
    (hv : v ≤ INT_MAX) (hw : w ≤ INT_MAX) (h : WInv P N) :
    WInv (upd2 P g i v) (upd2 N g i w) := by
  intro g' i'
  constructor
  · unfold upd2
    split_ifs
    · exact hv
    · exact (h g' i').1
  · unfold upd2
    split_ifs
    · exact hw
    · exact (h g' i').2

lemma guardedP_winv (st : SearchSt) (g : Bool) (idx cand tj ti mask bits : Nat)
    (h : WInv st.P st.N) :
    WInv (C23.guardedP st g idx cand tj ti mask bits).P
      (C23.guardedP st g idx cand tj ti mask bits).N := by
  unfold C23.guardedP
  split_ifs with hlt
  · intro g' i'
    refine ⟨?_, (h g' i').2⟩
    show upd2 st.P g idx cand g' i' ≤ INT_MAX
    unfold upd2
    split_ifs
    · exact le_of_lt (lt_of_lt_of_le hlt (h g idx).1)
    · exact (h g' i').1
  · exact h

lemma guardedN_winv (st : SearchSt) (g : Bool) (idx cand tj ti mask bits : Nat)
    (h : WInv st.P st.N) :
    WInv (C23.guardedN st g idx cand tj ti mask bits).P
      (C23.guardedN st g idx cand tj ti mask bits).N := by
  unfold C23.guardedN
  split_ifs with hlt
  · intro g' i'
    refine ⟨(h g' i').1, ?_⟩
    show upd2 st.N g idx cand g' i' ≤ INT_MAX
    unfold upd2
    split_ifs
    · exact le_of_lt (lt_of_lt_of_le hlt (h g idx).2)
    · exact (h g' i').2
  · exact h

lemma horizStep23_winv (a : bigint) (j : Nat) (c : Bool) (i : Nat) (st : SearchSt)
    (h : WInv st.P st.N) :
    WInv (C23.horizStep a j c i st).P (C23.horizStep a j c i st).N := by
  unfold C23.horizStep
  split_ifs <;>
    exact guardedN_winv _ _ _ _ _ _ _ _
      ((fun h1 => by first
          | exact guardedN_winv _ _ _ _ _ _ _ _ h1
          | exact guardedP_winv _ _ _ _ _ _ _ _ h1)
        (guardedP_winv _ _ _ _ _ _ _ _ h))

lemma vertStep23_winv (a b : bigint) (j : Nat) (c : Bool) (i : Nat) (st : SearchSt)
    (h : WInv st.P st.N) :
    WInv (C23.vertStep a b j c i st).P (C23.vertStep a b j c i st).N := by
  unfold C23.vertStep
  split_ifs
  · exact guardedN_winv _ _ _ _ _ _ _ _ (guardedP_winv _ _ _ _ _ _ _ _ h)
  · exact guardedN_winv _ _ _ _ _ _ _ _ (guardedP_winv _ _ _ _ _ _ _ _ h)
  · exact guardedN_winv _ _ _ _ _ _ _ _ (guardedN_winv _ _ _ _ _ _ _ _ h)
  · exact guardedP_winv _ _ _ _ _ _ _ _ (guardedP_winv _ _ _ _ _ _ _ _ h)
  · exact h

lemma rowIter23_winv (a b : bigint) (j : Nat) (c : Bool) (st : SearchSt) (cont : Nat)
    (i : Nat) (h : WInv st.P st.N) :
    WInv (C23.rowIter a b j c (st, cont) i).1.P (C23.rowIter a b j c (st, cont) i).1.N := by
  have h0 : WInv (upd2 st.P (!c) i INT_MAX) (upd2 st.N (!c) i INT_MAX) :=
    winv_upd2_both (!c) i INT_MAX INT_MAX (Nat.le_refl _) (Nat.le_refl _) h
  unfold C23.rowIter
  dsimp only
  split_ifs
  · exact h0
  · exact vertStep23_winv a b j c i _ (horizStep23_winv a j c i _ h0)

lemma fold23_winv (a b : bigint) (j : Nat) (c : Bool) :
    ∀ (l : List Nat) (p : SearchSt × Nat), WInv p.1.P p.1.N →
      WInv ((l.foldl (C23.rowIter a b j c) p)).1.P
        ((l.foldl (C23.rowIter a b j c) p)).1.N := by
  intro l
  induction l with
  | nil => intro p h; exact h
  | cons x xs ih =>
    intro p h
    simp only [List.foldl_cons]
    exact ih _ (rowIter23_winv a b j c p.1 p.2 x h)

lemma initSt23_winv (sh0 : chain) : WInv (C23.initSt sh0).P (C23.initSt sh0).N := by
  intro g i
  constructor <;>
    · unfold C23.initSt upd2
      dsimp only
      split_ifs <;> simp [INT_MAX]

lemma columnInit23_winv (c : Bool) (size : Nat) (st : SearchSt) (h : WInv st.P st.N) :
    WInv (C23.columnInit c size st).P (C23.columnInit c size st).N := by
  unfold C23.columnInit
  exact winv_upd2_both _ _ _ _ (Nat.le_refl _) (Nat.le_refl _)
    (winv_upd2_both _ _ _ _ (Nat.le_refl _) (Nat.le_refl _) h)

lemma bestCheck23_winv (g : Bool) (row col : Nat) (st : SearchSt) (h : WInv st.P st.N) :
    WInv (C23.bestCheck g row col st).P (C23.bestCheck g row col st).N := by
  unfold C23.bestCheck
  split_ifs
  · exact h
  · exact h

lemma search23_winv : ∀ (fuel : Nat) (a : bigint) (j : Nat) (c : Bool)
    (st st' : SearchSt), WInv st.P st.N → C23.search fuel a j c st = some st' →
    WInv st'.P st'.N := by
  intro fuel
  induction fuel with
  | zero =>
    intro a j c st st' h hrun
    exact absurd hrun (by simp [C23.search])
  | succ f ih =>
    intro a j c st st' h hrun
    rw [C23.search] at hrun
    dsimp only at hrun
    split_ifs at hrun
    · exact (Option.some.inj hrun) ▸ h
    · exact (Option.some.inj hrun) ▸
        bestCheck23_winv _ _ _ _ (bestCheck23_winv _ _ _ _
          (fold23_winv _ _ _ _ _ _ (columnInit23_winv _ _ _ h)))
    · exact (Option.some.inj hrun) ▸
        bestCheck23_winv _ _ _ _ (bestCheck23_winv _ _ _ _
          (bestCheck23_winv _ _ _ _ (bestCheck23_winv _ _ _ _
            (fold23_winv _ _ _ _ _ _ (columnInit23_winv _ _ _ h)))))
    · exact ih _ _ _ _ _
        (bestCheck23_winv _ _ _ _ (bestCheck23_winv _ _ _ _
          (bestCheck23_winv _ _ _ _ (bestCheck23_winv _ _ _ _
            (fold23_winv _ _ _ _ _ _ (columnInit23_winv _ _ _ h)))))) hrun

lemma optimal_chain23_winv (fuel : Nat) (a : bigint) (sh0 : chain) (st' : SearchSt)
    (hrun : C23.optimal_chain fuel a sh0 = some st') : WInv st'.P st'.N :=
  search23_winv fuel a 0 false (C23.initSt sh0) st' (initSt23_winv sh0) hrun

/-!  ## Lemmas about the `23_spa.cpp` step helper and the reconstructor  -/

lemma updT_self (T : Nat → Nat → Nat) (j i : Nat) : updT T j i (T j i) = T := by
  funext j' i'
  unfold updT
  split_ifs with h
  · rw [h.1, h.2]
  · rfl

lemma spaStep_val (v1 v2 j i mov : Nat) (T : Nat → Nat → Nat) :
    (CSPA.step v1 v2 j i mov T).1 = if v1 < v2 then v1 else v2 := by
  unfold CSPA.step
  dsimp only
  split_ifs <;> rfl

lemma spaStep_tie (v1 v2 j i mov : Nat) (T : Nat → Nat → Nat) (hge : ¬ v1 < v2)
    (hbyte : T j i ≤ 255) : (CSPA.step v1 v2 j i mov T).2 = T := by
  unfold CSPA.step
  dsimp only
  rw [if_neg hge]
  have h255 : T j i &&& 255 = T j i := by
    have : (255 : Nat) = 2 ^ 8 - 1 := by norm_num
    rw [this, Nat.and_pow_two_sub_one_of_lt_two_pow (by omega)]
  rw [Nat.or_zero, h255, updT_self]

lemma printStep_delta (T : Int → Int → Nat) (st : PrintSt) :
    (printStep T st).i + (printStep T st).j = st.i + st.j - 1 ∧
    (printStep T st).weight ≤ st.weight ∧ st.weight ≤ (printStep T st).weight + 1 := by
  unfold printStep
  dsimp only
  repeat' split
  all_goals refine ⟨?_, ?_, ?_⟩ <;> dsimp only <;> omega

lemma printLoop_none (T : Int → Int → Nat) :
    ∀ (fuel : Nat) (st : PrintSt), (fuel : Int) < st.weight → printLoop T fuel st = none := by
  intro fuel
  induction fuel with
  | zero =>
    intro st h
    rw [printLoop, if_pos (by exact_mod_cast h)]
  | succ f ih =>
    intro st h
    rw [printLoop, if_pos (by omega)]
    apply ih
    have := (printStep_delta T st).2.2
    omega

/-!  ## Lemmas about the best-chain updates  -/

lemma bestCheck_spec (g : Bool) (row col : Nat) (st : SearchSt) :
    C23.bestCheck g row col st =
      { st with shortest := bestUpd st.shortest (st.P g row, row, col) } := by
  unfold C23.bestCheck bestUpd
  split_ifs <;> rfl

lemma shorter_chain_spec (i j : Nat) (row : Bool) (P : Bool → Nat → Nat) (sh : chain) :
    CSPA.shorter_chain i j row P sh = bestUpd sh (P row i, i, j) := by
  unfold CSPA.shorter_chain bestUpd
  dsimp only

lemma bestUpd_strict (sh : chain) (cand : Nat × Nat × Nat) :
    (bestUpd sh cand).weight ≤ sh.weight ∧ (¬ cand.1 < sh.weight → bestUpd sh cand = sh) := by
  unfold bestUpd
  split_ifs with h
  · exact ⟨Nat.le_of_lt h, fun hc => absurd h hc⟩
  · exact ⟨Nat.le_refl _, fun _ => rfl⟩

lemma search23_column (f : Nat) (a : bigint) (j : Nat) (c : Bool) (st : SearchSt)
    (hz : a.zero = false) :
    C23.search (f + 1) a j c st =
      (let pr := C23.divide_by_3 a
       let b := pr.2
       let size := pr.1.msb
       let rl := (List.range (size + 1)).foldl (C23.rowIter pr.1 b j c)
         (C23.columnInit c size st, 0)
       let stc := { rl.1 with shortest := (bestUpd (bestUpd rl.1.shortest (rl.1.P c (size + 1), size + 1, j)) (rl.1.P c (size + 2), size + 2, j)) }
       if pr.1.zero then some stc
       else
         let stn := { stc with shortest := (bestUpd (bestUpd stc.shortest (rl.1.P (!c) (b.msb + 1), b.msb + 1, j + 1)) (rl.1.P (!c) (b.msb + 2), b.msb + 2, j + 1)) }
         if pr.1.msb ≤ rl.2 then some stn
         else C23.search f b (j + 1) (!c) stn) := by
  rw [C23.search, if_neg (by simp [hz])]
  simp only [bestCheck_spec]

lemma searchSpa_column (f : Nat) (a : bigint) (j : Nat) (c : Bool) (st : SearchSt)
    (hz : a.zero = false) :
    CSPA.search (f + 1) a j c st =
      (let pr := CSPA.divide_by_3 a
       let b := pr.2
       let size := pr.1.msb
       let st1 := { st with P := upd2 st.P (!c) (size + 1) max_size,
                            N := upd2 st.N (!c) (size + 1) max_size }
       let st2 := { st1 with P := upd2 st1.P (!c) (size + 2) max_size,
                             N := upd2 st1.N (!c) (size + 2) max_size }
       let stS := (List.range (size + 1)).foldl (CSPA.rowIter pr.1 b j c) st2
       CSPA.search f b (j + 1) (!c) { stS with shortest := (bestUpd (bestUpd (bestUpd (bestUpd stS.shortest (stS.P c (size + 1), size + 1, j)) (stS.P c (size + 2), size + 2, j)) (stS.P (!c) (b.msb + 1), b.msb + 1, j)) (stS.P (!c) (b.msb + 2), b.msb + 2, j)) }) := by
  rw [CSPA.search, if_neg (by simp [hz])]
  simp only [shorter_chain_spec]

/-!  ## The claims  -/

/-- Claim C1, counterexample to the claim as stated: on the `bigint`
holding 3 (hex parse: `msb = 2` suffices to cover it), the quotient
computed by `divide_by_3` of `23_spa.cpp` is 1, yet the destination's
`zero` flag is set — the flag does not agree with `value == 0` after
the call. -/
theorem c1_counterexample :
    (CSPA.divide_by_3 ⟨3, 2, false⟩).2.num = 1 ∧
    (CSPA.divide_by_3 ⟨3, 2, false⟩).2.zero = true := by
  decide

/-- Claim C1 (corrected): for every in-capacity `bigint`, both
`divide_by_3` routines compute the exact quotient `⌊v/3⌋` and agree on
the destination `msb`; but the zero flags differ from the claim: in
`23.cpp` the destination flag is `quotient = 0` and the updated
`orig` flag is `value = 0`, while in `23_spa.cpp` the destination flag
is `quotient ≤ 1` (conflating quotient 1 with 0) and the `orig` flag
is only ever cleared, never set (`orig.zero && value = 0`). -/
theorem c1_amended (orig : bigint) (hcap : orig.num < 2 ^ (orig.msb + 1)) :
    (C23.divide_by_3 orig).2.num = orig.num / 3 ∧
    (CSPA.divide_by_3 orig).2.num = orig.num / 3 ∧
    (CSPA.divide_by_3 orig).2.msb = (C23.divide_by_3 orig).2.msb ∧
    (C23.divide_by_3 orig).2.zero = decide (orig.num / 3 = 0) ∧
    (CSPA.divide_by_3 orig).2.zero = decide (orig.num / 3 ≤ 1) ∧
    (C23.divide_by_3 orig).1.zero = decide (orig.num = 0) ∧
    (CSPA.divide_by_3 orig).1.zero = (orig.zero && decide (orig.num = 0)) := by
  obtain ⟨a1, a2, a3, a4⟩ := divide_by_3_23_spec orig hcap
  obtain ⟨b1, b2, b3, b4⟩ := divide_by_3_spa_spec orig hcap
  refine ⟨a1, b1, msbInv_unique b2 a2, a3, b3, ?_, ?_⟩
  · rw [a4]
  · rw [b4]

/-- Claim C1, witness: the corrected statement applied at the
`bigint` holding 3. -/
theorem c1_witness :
    (3 : Nat) < 2 ^ (2 + 1) ∧ (C23.divide_by_3 ⟨3, 2, false⟩).2.num = 3 / 3 :=
  ⟨by decide, (c1_amended ⟨3, 2, false⟩ (by decide)).1⟩

/-- Claim C3: the two variants do not compute the same best-chain
weight on every shared input.  On input `"3"` (character 51), which
both parsers accept, `23.cpp` finds the optimal weight 1
(`3 = 2^0·3^1`) while `23_spa.cpp` reports 2: its `divide_by_3` flags
the quotient 1 as zero, so the constant-time search stops one column
early and misses the single-term chain. -/
theorem c3_weight_divergence :
    (C23.str_to_bits 20 [51]).map (fun p => p.2) = some ⟨3, 3, false⟩ ∧
    CSPA.str_to_bits [51] = ⟨3, 4, false⟩ ∧
    (C23.optimal_chain 20 ⟨3, 3, false⟩ ⟨0, 0, 0⟩).map (fun s => s.shortest.weight) =
      some 1 ∧
    (CSPA.optimal_chain 20 ⟨3, 4, false⟩ ⟨0, 0, 0⟩).map (fun s => s.shortest.weight) =
      some 2 := by
  decide

set_option maxRecDepth 100000 in
/-- Claim C4, counterexample to the claim as stated: the hexadecimal
inputs `"10"` and `"ff"` have the same parsed bit-length
(`msb = 8`), yet the constant-time search of `23_spa.cpp` executes 13
row evaluations on the first and 31 on the second: the number of
columns is the length of the repeated-division-by-3 chain, a function
of the input's value, not of its bit-length. -/
theorem c4_counterexample :
    (CSPA.str_to_bits [49, 48]).msb = (CSPA.str_to_bits [102, 102]).msb ∧
    (CSPA.optimal_chain 50 (CSPA.str_to_bits [49, 48]) ⟨0, 0, 0⟩).map SearchSt.cnt =
      some 13 ∧
    (CSPA.optimal_chain 50 (CSPA.str_to_bits [102, 102]) ⟨0, 0, 0⟩).map SearchSt.cnt =
      some 31 := by
  decide

/-- Claim C4 (corrected): what does hold of `23_spa.cpp`'s loop
structure.  The count of row evaluations (the ghost `cnt` field, one
increment per loop body of the `for (i = 0; i <= size; i++)` loop) is
a deterministic function of the input `bigint` alone: it does not
depend on the weight tables, the trace table or the incumbent best
chain; each column unconditionally evaluates exactly `size + 1` rows
with no early exit.  The count is *not* a function of bit-length
alone (see the counterexample). -/
theorem c4_amended :
    (∀ (fuel : Nat) (a : bigint) (j : Nat) (c : Bool) (st1 st2 : SearchSt),
      st1.cnt = st2.cnt →
      (CSPA.search fuel a j c st1).map SearchSt.cnt =
        (CSPA.search fuel a j c st2).map SearchSt.cnt) ∧
    (∀ (a b : bigint) (j : Nat) (c : Bool) (k : Nat) (st : SearchSt),
      ((List.range k).foldl (CSPA.rowIter a b j c) st).cnt = st.cnt + k) ∧
    (∀ (a b : bigint) (j : Nat) (c : Bool) (st : SearchSt) (i : Nat),
      (CSPA.rowIter a b j c st i).cnt = st.cnt + 1) :=
  ⟨spaSearch_cnt_indep, fun a b j c k st => spaFold_cnt a b j c k st,
   fun a b j c st i => spaRowIter_cnt a b j c st i⟩

/-- Claim C4, witness: the noninterference statement applied to two
concrete states differing in their trace tables. -/
theorem c4_witness :
    (CSPA.search 3 ⟨1, 4, false⟩ 0 false (CSPA.initSt ⟨0, 0, 0⟩)).map SearchSt.cnt =
      (CSPA.search 3 ⟨1, 4, false⟩ 0 false
        { CSPA.initSt ⟨0, 0, 0⟩ with T := fun _ _ => 9 }).map SearchSt.cnt :=
  c4_amended.1 3 ⟨1, 4, false⟩ 0 false (CSPA.initSt ⟨0, 0, 0⟩)
    { CSPA.initSt ⟨0, 0, 0⟩ with T := fun _ _ => 9 } rfl

/-- Claim C5, counterexample to the claim as stated: `23_spa.cpp`
passes column `j` (not `j + 1`) to `shorter_chain` for the
next-generation rows.  On a weight table whose next-generation row 4
holds weight 1, the call the source makes at column `j = 0` records
the triple `{1, 4, 0}`, while the spec's convention (column `j + 1`
for next-generation cells, where that generation's trace records
live) records `{1, 4, 1}`: the recorded columns differ. -/
theorem c5_counterexample :
    CSPA.shorter_chain 4 0 true
      (fun g i => if g = true ∧ i = 4 then 1 else max_size) ⟨260, 0, 0⟩ = ⟨1, 4, 0⟩ ∧
    specNextGenRecord 4 0 true
      (fun g i => if g = true ∧ i = 4 then 1 else max_size) ⟨260, 0, 0⟩ = ⟨1, 4, 1⟩ := by
  decide

/-- Claim C5 (corrected): both engines update the best chain only on
strict improvement (ties keep the incumbent), inspecting exactly rows
`size+1`, `size+2` of the current generation and `b.msb+1`, `b.msb+2`
of the next; `23.cpp` records columns `(j, j, j+1, j+1)` for the four
candidates as the claim says, but `23_spa.cpp` records `(j, j, j, j)`
— its next-generation candidates are stamped with the current column,
so its recorded triple is not in general a pointer to the terminal
cell's trace records at `T[j+1][i]`. -/
theorem c5_amended :
    (∀ (i j : Nat) (row : Bool) (P : Bool → Nat → Nat) (sh : chain),
      CSPA.shorter_chain i j row P sh = bestUpd sh (P row i, i, j)) ∧
    (∀ (g : Bool) (row col : Nat) (st : SearchSt),
      C23.bestCheck g row col st =
        { st with shortest := bestUpd st.shortest (st.P g row, row, col) }) ∧
    (∀ (sh : chain) (cand : Nat × Nat × Nat),
      (bestUpd sh cand).weight ≤ sh.weight ∧
      (¬ cand.1 < sh.weight → bestUpd sh cand = sh)) ∧
    (∀ (f : Nat) (a : bigint) (j : Nat) (c : Bool) (st : SearchSt), a.zero = false →
      C23.search (f + 1) a j c st =
        (let pr := C23.divide_by_3 a
         let b := pr.2
         let size := pr.1.msb
         let rl := (List.range (size + 1)).foldl (C23.rowIter pr.1 b j c)
           (C23.columnInit c size st, 0)
         let stc := { rl.1 with shortest := (bestUpd (bestUpd rl.1.shortest (rl.1.P c (size + 1), size + 1, j)) (rl.1.P c (size + 2), size + 2, j)) }
         if pr.1.zero then some stc
         else
           let stn := { stc with shortest := (bestUpd (bestUpd stc.shortest (rl.1.P (!c) (b.msb + 1), b.msb + 1, j + 1)) (rl.1.P (!c) (b.msb + 2), b.msb + 2, j + 1)) }
           if pr.1.msb ≤ rl.2 then some stn
           else C23.search f b (j + 1) (!c) stn)) ∧
    (∀ (f : Nat) (a : bigint) (j : Nat) (c : Bool) (st : SearchSt), a.zero = false →
      CSPA.search (f + 1) a j c st =
        (let pr := CSPA.divide_by_3 a
         let b := pr.2
         let size := pr.1.msb
         let st1 := { st with P := upd2 st.P (!c) (size + 1) max_size,
                              N := upd2 st.N (!c) (size + 1) max_size }
         let st2 := { st1 with P := upd2 st1.P (!c) (size + 2) max_size,
                               N := upd2 st1.N (!c) (size + 2) max_size }
         let stS := (List.range (size + 1)).foldl (CSPA.rowIter pr.1 b j c) st2
         CSPA.search f b (j + 1) (!c) { stS with shortest := (bestUpd (bestUpd (bestUpd (bestUpd stS.shortest (stS.P c (size + 1), size + 1, j)) (stS.P c (size + 2), size + 2, j)) (stS.P (!c) (b.msb + 1), b.msb + 1, j)) (stS.P (!c) (b.msb + 2), b.msb + 2, j)) })) :=
  ⟨shorter_chain_spec, bestCheck_spec, bestUpd_strict, search23_column, searchSpa_column⟩

/-- Claim C5, witness: the two column characterisations applied at
the parsed value 1 for each variant, evaluated to the recorded best
triples (`23.cpp` terminates within the column via its `break`;
`23_spa.cpp` records its triple with the current column). -/
theorem c5_witness :
    (C23.search (0 + 1) ⟨1, 0, false⟩ 0 false (C23.initSt ⟨0, 0, 0⟩)).map
        (fun s => s.shortest) = some ⟨1, 1, 0⟩ ∧
    (CSPA.search (1 + 1) ⟨1, 4, false⟩ 0 false (CSPA.initSt ⟨0, 0, 0⟩)).map
        (fun s => s.shortest) = some ⟨1, 5, 0⟩ := by
  constructor
  · rw [c5_amended.2.2.2.1 0 ⟨1, 0, false⟩ 0 false (C23.initSt ⟨0, 0, 0⟩) rfl]
    decide
  · rw [c5_amended.2.2.2.2 1 ⟨1, 4, false⟩ 0 false (CSPA.initSt ⟨0, 0, 0⟩) rfl]
    decide

/-- Claim C6, counterexample to the claim as stated: in `23.cpp`,
parsing the input string `"0"` yields the zero `bigint` with its
`zero` flag set, so the search loop never runs and the best-chain
weight keeps its `INT_MAX` sentinel — not the claimed weight 0. -/
theorem c6_counterexample :
    C23.str_to_bits 10 [48] = some ([48], ⟨0, 1, true⟩) ∧
    (C23.optimal_chain 10 ⟨0, 1, true⟩ ⟨0, 0, 0⟩).map (fun s => s.shortest.weight) =
      some 2147483647 := by
  decide

/-- Claim C6 (corrected): the input-0 scenario holds for
`23_spa.cpp` — parsing `"0"` yields the zero `bigint` with `zero`
still false (`msb = 4 > 0`), the search runs one column, finds weight
0, and the reconstructor emits the empty term sequence — but fails
for `23.cpp`, whose best-chain weight stays at the `INT_MAX`
sentinel. -/
theorem c6_amended :
    CSPA.str_to_bits [48] = ⟨0, 4, false⟩ ∧
    (CSPA.optimal_chain 10 (CSPA.str_to_bits [48]) ⟨0, 0, 0⟩).map
        (fun s => s.shortest.weight) = some 0 ∧
    (CSPA.optimal_chain 10 (CSPA.str_to_bits [48]) ⟨0, 0, 0⟩).map
        (fun s => print_chain 10 (tableExt s.T (fun _ _ => 0)) s.shortest) =
      some (some []) ∧
    (C23.optimal_chain 10 ⟨0, 1, true⟩ ⟨0, 0, 0⟩).map (fun s => s.shortest.weight) =
      some INT_MAX := by
  decide

set_option maxRecDepth 100000 in
/-- Claim C7, counterexample to the claim as stated: the vertical
steps of `23_spa.cpp` write `P_weight[next][i]` and `T[j+1][i]`
unconditionally (not guarded by strict improvement), so a weight cell
can rise above the `max_size` sentinel it was initialised with: after
the run on input `"17"`, cell `P_weight[0][0]` holds
`261 = max_size + 1`. -/
theorem c7_counterexample :
    max_size = 260 ∧
    (CSPA.optimal_chain 50 (CSPA.str_to_bits [49, 55]) ⟨0, 0, 0⟩).map
        (fun s => s.P false 0) = some 261 := by
  decide

/-- Claim C7 (corrected): the strict-improvement discipline holds for
the `step` helper of `23_spa.cpp` (the new cell value is
`min(candidate, incumbent)`, and on a tie the camouflage write
`T[j][i] &= 255; T[j][i] |= 0` leaves the trace table unchanged when
the cell is a byte) and for every guarded update of `23.cpp` (whose
tables therefore never exceed the `INT_MAX` sentinel in any
terminating run); it fails for the unconditional vertical writes of
`23_spa.cpp` (see the counterexample). -/
theorem c7_amended :
    (∀ (v1 v2 j i mov : Nat) (T : Nat → Nat → Nat),
      (CSPA.step v1 v2 j i mov T).1 = (if v1 < v2 then v1 else v2) ∧
      (¬ v1 < v2 → T j i ≤ 255 → (CSPA.step v1 v2 j i mov T).2 = T)) ∧
    (∀ (fuel : Nat) (a : bigint) (sh0 : chain) (st : SearchSt),
      C23.optimal_chain fuel a sh0 = some st →
      ∀ g i, st.P g i ≤ INT_MAX ∧ st.N g i ≤ INT_MAX) :=
  ⟨fun v1 v2 j i mov T =>
    ⟨spaStep_val v1 v2 j i mov T, fun h1 h2 => spaStep_tie v1 v2 j i mov T h1 h2⟩,
   fun fuel a sh0 st h => optimal_chain23_winv fuel a sh0 st h⟩

/-- Claim C7, witness: the tie case of `step` leaves the table
unchanged at a concrete non-improving candidate, and the sentinel
bound read off a concrete terminating run of `23.cpp`. -/
theorem c7_witness :
    (CSPA.step 5 3 0 0 64 (fun _ _ => 0)).2 = (fun _ _ => 0) ∧
    (C23.initSt ⟨0, 0, 0⟩).P false 5 ≤ INT_MAX :=
  ⟨(c7_amended.1 5 3 0 0 64 (fun _ _ => 0)).2 (by decide) (by decide),
   ((c7_amended.2 1 ⟨0, 1, true⟩ ⟨0, 0, 0⟩ (C23.initSt ⟨0, 0, 0⟩)) rfl false 5).1⟩

/-- Claim C8, counterexample to the claim as stated: after the
`23.cpp` run on input 0 leaves the best-chain weight at the
`INT_MAX` sentinel, the reconstructor walks to row `-3` after three
iterations with the weight untouched — it raises no error and keeps
walking off the table; within 50 iterations it has not terminated. -/
theorem c8_counterexample :
    zeroRun.shortest.weight = 2147483647 ∧
    ((printStep (tableExt zeroRun.T (fun _ _ => 0)))^[3]
        (printInit (tableExt zeroRun.T (fun _ _ => 0)) zeroRun.shortest)).i = -3 ∧
    ((printStep (tableExt zeroRun.T (fun _ _ => 0)))^[3]
        (printInit (tableExt zeroRun.T (fun _ _ => 0)) zeroRun.shortest)).weight =
      2147483647 ∧
    print_chain 50 (tableExt zeroRun.T (fun _ _ => 0)) zeroRun.shortest = none := by
  decide

/-- Claim C8 (corrected): `print_chain` contains no negative-index
check and signals nothing: every iteration moves the position sum
`i + j` down by exactly one and decrements the weight by at most one,
so on the input-0 run of `23.cpp` (whatever junk out-of-bounds reads
return) the walk reaches position sum `-k` after `k` steps while the
weight stays at least `2147483647 - k`, and the loop has not
terminated after any number of iterations below `2147483647`. -/
theorem c8_amended :
    (∀ (T : Int → Int → Nat) (st : PrintSt),
      (printStep T st).i + (printStep T st).j = st.i + st.j - 1 ∧
      (printStep T st).weight ≤ st.weight ∧ st.weight ≤ (printStep T st).weight + 1) ∧
    (∀ (junk : Int → Int → Nat) (k : Nat),
      ((printStep (tableExt zeroRun.T junk))^[k]
          (printInit (tableExt zeroRun.T junk) zeroRun.shortest)).i +
        ((printStep (tableExt zeroRun.T junk))^[k]
          (printInit (tableExt zeroRun.T junk) zeroRun.shortest)).j = -(k : Int) ∧
      (2147483647 : Int) ≤ ((printStep (tableExt zeroRun.T junk))^[k]
          (printInit (tableExt zeroRun.T junk) zeroRun.shortest)).weight + k) ∧
    (∀ (junk : Int → Int → Nat) (fuel : Nat), (fuel : Int) < 2147483647 →
      print_chain fuel (tableExt zeroRun.T junk) zeroRun.shortest = none) := by
  refine ⟨printStep_delta, ?_, ?_⟩
  · intro junk k
    induction k with
    | zero =>
      constructor
      · show ((zeroRun.shortest.i : Nat) : Int) + ((zeroRun.shortest.j : Nat) : Int) =
          -(((0 : Nat) : Nat) : Int)
        decide
      · show (2147483647 : Int) ≤ ((zeroRun.shortest.weight : Nat) : Int) + ((0 : Nat) : Int)
        decide
    | succ n ih =>
      have hd := printStep_delta (tableExt zeroRun.T junk)
        ((printStep (tableExt zeroRun.T junk))^[n]
          (printInit (tableExt zeroRun.T junk) zeroRun.shortest))
      rw [Function.iterate_succ_apply']
      push_cast at ih ⊢
      omega
  · intro junk fuel hf
    unfold print_chain
    apply printLoop_none
    show (fuel : Int) < ((zeroRun.shortest.weight : Nat) : Int)
    have hw : zeroRun.shortest.weight = 2147483647 := by decide
    rw [hw]
    exact_mod_cast hf

/-- Claim C8, witness: the non-termination bound applied at a
concrete junk table and fuel 7. -/
theorem c8_witness :
    print_chain 7 (tableExt zeroRun.T (fun _ _ => 1)) zeroRun.shortest = none :=
  c8_amended.2.2 (fun _ _ => 1) 7 (by decide)

/-- Claim C9, counterexample to the claim as stated: neither parser
validates its alphabet.  `23.cpp` accepts the non-decimal string
`"a"` (character 97) and produces the `bigint` 49, and `23_spa.cpp`
accepts the non-hexadecimal string `"z"` (character 122) and produces
the `bigint` 35 — no failure is signalled in either case. -/
theorem c9_counterexample :
    C23.str_to_bits 120 [97] = some ([48], ⟨49, 7, false⟩) ∧
    CSPA.str_to_bits [122] = ⟨35, 4, false⟩ := by
  decide

/-- Claim C9 (corrected): the hexadecimal parse of `23_spa.cpp` is
total on arbitrary character lists and performs no validation: for
every input string it returns a `bigint` whose `msb` is four times
the string length (not the index of the highest set bit) and whose
`zero` flag merely records whether the string was empty. -/
theorem c9_amended (s : List Nat) :
    (CSPA.str_to_bits s).msb = 4 * s.length ∧
    (CSPA.str_to_bits s).zero = decide (s.length = 0) := by
  constructor
  · exact strFold_bitcount s
  · show (if (CSPA.strFold s).2 > 0 then false else true) = decide (s.length = 0)
    rw [strFold_bitcount]
    cases s with
    | nil => rfl
    | cons c rest => simp

/-- Claim C10 (confirmed): the decimal parse of `23.cpp` destroys its
input buffer.  For every all-decimal character buffer, whenever
`str_to_bits` terminates, the buffer it hands back consists solely of
`'0'` characters (code 48) and has the original length: the caller's
string has been overwritten in place by the repeated halving. -/
theorem c10_buffer_zeroed (fuel : Nat) (s : List Nat) (out : List Nat × bigint)
    (hdig : ∀ c ∈ s, 48 ≤ c ∧ c ≤ 57)
    (hout : C23.str_to_bits fuel s = some out) :
    (∀ c ∈ out.1, c = 48) ∧ out.1.length = s.length :=
  strLoop_zeroed fuel s 0 0 true out hdig hout

/-- Claim C10, witness: the buffer-destruction statement applied to
the decimal input `"12"`, whose buffer comes back as `"00"`. -/
theorem c10_witness :
    C23.str_to_bits 70 [49, 50] = some ([48, 48], ⟨12, 5, false⟩) ∧
    (([48, 48], (⟨12, 5, false⟩ : bigint)).1.length = ([49, 50] : List Nat).length) :=
  ⟨rfl, (c10_buffer_zeroed 70 [49, 50] ([48, 48], ⟨12, 5, false⟩)
    (by decide) rfl).2⟩
